import Mathlib

/-!
Verification development for the vstol variant set-algebra toolkit.

The definitions below are shallow embeddings of the Python source under
`src/python/vstolib/` (and `src/src/vstolib/index.py`).  Python's unbounded
integers are modelled as `Int`, strings as `String`, raised exceptions as
`Except String`.  Components implemented in the compiled Rust core
(`vstolibrs`), which is not part of the source tree, are modelled from the
specification and carry a doc comment saying so.
-/

namespace Vstol

/-- Python string comparison: lexicographic on code points.  Lean's
`String.lt` is the same relation (`String.lt_iff_toList_lt`); the `.data`
form is used because it evaluates inside the kernel. -/
def strLt (a b : String) : Bool := decide (a.data < b.data)

/-! ## GenomicRange (src/python/vstolib/genomic_range.py) -/

/-- `GenomicRange` dataclass: `(chromosome, start, end)`.  The field `end`
is a Lean keyword, hence the guillemet spelling. -/
structure GenomicRange where
  chromosome : String
  start : Int
  «end» : Int
deriving DecidableEq, Repr

/-- `GenomicRange.overlaps(chromosome, start, end)`: returns `True` iff
`chromosome == self.chromosome and start <= self.end and end >= self.start`. -/
def GenomicRange.overlaps (g : GenomicRange) (chromosome : String)
    (start «end» : Int) : Bool :=
  if chromosome = g.chromosome ∧ start ≤ g.«end» ∧ «end» ≥ g.start then
    true
  else
    false

/-- `GenomicRange.__eq__`, exactly as written in the source: it compares
`(self.chromosome, self.start, self.end)` with
`(other.chromosome, other.start, self.end)` — the third component is
`self.end` on BOTH sides (source line 49). -/
def grEqCode (a b : GenomicRange) : Bool :=
  (a.chromosome == b.chromosome) && (a.start == b.start) && (a.«end» == a.«end»)

/-- `GenomicRange.__lt__`, exactly as written in the source: lexicographic
comparison of `(self.chromosome, self.start, self.end)` against
`(other.chromosome, other.start, self.end)` — again with `self.end` as the
third component of the right-hand tuple (source line 43). -/
def grLtCode (a b : GenomicRange) : Bool :=
  strLt a.chromosome b.chromosome ||
    ((a.chromosome == b.chromosome) &&
      (decide (a.start < b.start) ||
        ((a.start == b.start) && decide (a.«end» < a.«end»))))

/-! ## GenomicRangesList (src/python/vstolib/genomic_ranges_list.py)

`genomic_ranges_map` maps a chromosome to the list of `GenomicRange`
objects added on it; insertion order of chromosomes is preserved, so it is
modelled as an association list.  The auxiliary `_genomic_ranges_map`
(ID → (chromosome, index)) only serves `get_genomic_range`, which no claim
touches, and is elided. -/

structure GenomicRangesList where
  genomic_ranges_map : List (String × List GenomicRange)
deriving DecidableEq, Repr

/-- Reading `genomic_ranges_map[chromosome]` on a `defaultdict(list)`:
the default value for an absent chromosome is the empty list. -/
def lookupChrom (m : List (String × List GenomicRange)) (c : String) :
    List GenomicRange :=
  (m.lookup c).getD []

/-- Helper for `add_genomic_range`: append `g` to the entry of its
chromosome, or create that entry at the end (defaultdict write). -/
def addToMap (m : List (String × List GenomicRange)) (g : GenomicRange) :
    List (String × List GenomicRange) :=
  match m with
  | [] => [(g.chromosome, [g])]
  | (c, rs) :: rest =>
    if c = g.chromosome then (c, rs ++ [g]) :: rest
    else (c, rs) :: addToMap rest g

/-- `GenomicRangesList.add_genomic_range`. -/
def GenomicRangesList.add_genomic_range (grl : GenomicRangesList)
    (g : GenomicRange) : GenomicRangesList :=
  ⟨addToMap grl.genomic_ranges_map g⟩

/-- `GenomicRangesList.size`: iterates over `genomic_ranges_map.values()`
counting one per chromosome entry. -/
def GenomicRangesList.size (grl : GenomicRangesList) : Nat :=
  grl.genomic_ranges_map.length

/-- `GenomicRangesList.num_genomic_regions`:
`len(self.genomic_ranges_map.values())`, i.e. the number of chromosome
entries. -/
def GenomicRangesList.num_genomic_regions (grl : GenomicRangesList) : Nat :=
  grl.genomic_ranges_map.length

/-- `GenomicRangesList.find_overlaps(chromosome, start, end)`: filter the
ranges stored under `chromosome` by `GenomicRange.overlaps`. -/
def GenomicRangesList.find_overlaps (grl : GenomicRangesList)
    (chromosome : String) (start «end» : Int) : List GenomicRange :=
  (lookupChrom grl.genomic_ranges_map chromosome).filter
    (fun g => g.overlaps chromosome start «end»)

/-- Empty `GenomicRangesList()`. -/
def GenomicRangesList.empty : GenomicRangesList := ⟨[]⟩

/-! ## Spatial index buffer (src/src/vstolib/index.py)

`index_genomic_ranges_list(df, buffer)` inserts, for each range, the
interval `[start - buffer, end + buffer)` into a per-chromosome interval
tree.  The membership test of a query point in one padded interval is
embedded directly. -/

/-- Membership of point `q` in the padded interval
`[g.start - buffer, g.end + buffer)` inserted by
`index_genomic_ranges_list`. -/
def indexHit (buffer : Int) (g : GenomicRange) (q : Int) : Bool :=
  decide (g.start - buffer ≤ q ∧ q < g.«end» + buffer)

/-! ## VariantCall (src/python/vstolib/variant_call.py)

The nine mandatory constructor fields plus `variant_size` (needed by the
match oracle, default `-1`).  The remaining optional evidence, provenance
and annotation fields take no part in any claim and are elided; equality
and ordering read only the locus fields in the source. -/

structure VariantCall where
  id : String
  sample_id : String
  chromosome_1 : String
  position_1 : Int
  chromosome_2 : String
  position_2 : Int
  variant_type : String
  reference_allele : String
  alternate_allele : String
  variant_size : Int := -1
deriving DecidableEq, Repr

/-- `VariantCall.__lt__`: Python tuple comparison
`(self.chromosome_1, self.position_1, self.chromosome_2, self.position_2) <
 (other.chromosome_1, other.position_1, other.chromosome_2, other.position_2)`,
i.e. lexicographic on the four locus components. -/
def vcLt (a b : VariantCall) : Bool :=
  strLt a.chromosome_1 b.chromosome_1 ||
    ((a.chromosome_1 == b.chromosome_1) &&
      (decide (a.position_1 < b.position_1) ||
        ((a.position_1 == b.position_1) &&
          (strLt a.chromosome_2 b.chromosome_2 ||
            ((a.chromosome_2 == b.chromosome_2) &&
              decide (a.position_2 < b.position_2))))))

/-- `VariantCall.__eq__`: equality of the two four-component locus tuples. -/
def vcEq (a b : VariantCall) : Bool :=
  (a.chromosome_1 == b.chromosome_1) && (a.position_1 == b.position_1) &&
    (a.chromosome_2 == b.chromosome_2) && (a.position_2 == b.position_2)

/-- The locus key `(chromosome_1, position_1, chromosome_2, position_2)`
with its lexicographic (Python tuple) order. -/
def locusKey (vc : VariantCall) :
    Lex (String × Lex (Int × Lex (String × Int))) :=
  toLex (vc.chromosome_1, toLex (vc.position_1,
    toLex (vc.chromosome_2, vc.position_2)))

/-! ## Variant (src/python/vstolib/variant.py) -/

structure Variant where
  id : String
  variant_calls : List VariantCall
deriving DecidableEq, Repr

/-- `bisect.insort(self.variant_calls, variant_call)`: right bisection —
the new call is inserted before the first existing call that is strictly
greater (`variant_call < existing` via `VariantCall.__lt__`), i.e. after
any existing call it compares equal to.  The stdlib binary search is
modelled by the equivalent linear insertion. -/
def insortR (x : VariantCall) : List VariantCall → List VariantCall
  | [] => [x]
  | y :: l => if vcLt x y then x :: y :: l else y :: insortR x l

/-- `Variant.add_variant_call`: if the variant already holds calls, a new
call whose `chromosome_1` or `chromosome_2` differs from the first call
raises; otherwise the call is insorted. -/
def Variant.add_variant_call (v : Variant) (vc : VariantCall) :
    Except String Variant :=
  match v.variant_calls with
  | [] => .ok { v with variant_calls := insortR vc [] }
  | c0 :: rest =>
    if vc.chromosome_1 ≠ c0.chromosome_1 ∨ vc.chromosome_2 ≠ c0.chromosome_2 then
      .error "VariantCall chromosome_1 and chromosome_2 must be the same as existing VariantCall objects in this Variant object."
    else
      .ok { v with variant_calls := insortR vc (c0 :: rest) }

/-- A `Variant(id)` freshly constructed and then grown by a sequence of
`add_variant_call` operations; in Python a raised exception leaves the
variant as it was, which the failure branch of the fold reflects. -/
def buildVariant (id : String) (vcs : List VariantCall) : Variant :=
  vcs.foldl
    (fun v vc =>
      match v.add_variant_call vc with
      | .ok v' => v'
      | .error _ => v)
    ⟨id, []⟩

/-! ## VariantsList (src/python/vstolib/variants_list.py)

The `_variants_dict` ID → index bookkeeping only serves `get_variant` and
is elided; `add_variant` appends. -/

structure VariantsList where
  variants : List Variant
deriving DecidableEq, Repr

def VariantsList.add_variant (vl : VariantsList) (v : Variant) :
    VariantsList :=
  ⟨vl.variants ++ [v]⟩

def VariantsList.variant_ids (vl : VariantsList) : List String :=
  vl.variants.map Variant.id

def VariantsList.variant_call_ids (vl : VariantsList) : List String :=
  (vl.variants.map (fun v => v.variant_calls.map VariantCall.id)).flatten

def VariantsList.empty : VariantsList := ⟨[]⟩

/-! ## Variant-type constants (src/python/vstolib/constants.py) -/

/-- `VariantTypes.ALL`: the eight known variant types. -/
def variantTypesAll : List String :=
  ["SNV", "MNV", "INS", "DEL", "INV", "DUP", "TRA", "BND"]

/-- `VariantTypes.QueryTypeDictionary`, entry for entry, with the member
lists in their source order. -/
def queryTypeDictionary : List (String × List String) :=
  [ ("SNV", ["SNV"]),
    ("MNV", ["MNV"]),
    ("INS", ["DUP", "INS"]),
    ("DEL", ["DEL"]),
    ("INV", ["BND", "INV", "TRA"]),
    ("DUP", ["DUP", "INS"]),
    ("TRA", ["BND", "INV", "TRA"]),
    ("BND", ["BND", "INV", "TRA"]) ]

/-- The class (list of matching query types) of a variant type according to
`QueryTypeDictionary`; an unknown type has the empty class. -/
def classOf (t : String) : List String :=
  (queryTypeDictionary.lookup t).getD []

/-! ## Overlap against regions (vstolibrs.overlap_variant_calls)

The hit computation lives in the compiled Rust core, which is not part of
the source tree. -/

/-- Modelled from the spec: `vstolibrs.overlap_variant_calls` — the missing
Rust routine behind `VariantsList.overlap`.  Per §4.4.6, a variant call
hits a genomic range iff the padded interval `[start - P, end + P]` of the
range contains `position_1` or `position_2` on the matching chromosome;
both breakpoints are tested independently. -/
def rangeContains (P : Int) (g : GenomicRange) (c : String) (pos : Int) :
    Bool :=
  decide (c = g.chromosome ∧ g.start - P ≤ pos ∧ pos ≤ g.«end» + P)

/-- Modelled from the spec: a call has at least one hit among the regions
of `grl` (see `rangeContains`). -/
def overlapHit (P : Int) (grl : GenomicRangesList) (vc : VariantCall) :
    Bool :=
  (grl.genomic_ranges_map.map Prod.snd).flatten.any
    (fun g =>
      rangeContains P g vc.chromosome_1 vc.position_1 ||
        rangeContains P g vc.chromosome_2 vc.position_2)

/-! ## filter_excluded_regions (src/python/vstolib/main.py, lines 206-264) -/

/-- All variant calls of a variants list, in order. -/
def allCalls (vl : VariantsList) : List VariantCall :=
  (vl.variants.map Variant.variant_calls).flatten

/-- Step 1 of `filter_excluded_regions`: the set
`rejected_variant_call_ids` of IDs of calls reported by
`VariantsList.overlap` against the excluded regions. -/
def rejectedVariantCallIds (P : Int) (variants_list : VariantsList)
    (excluded_regions_list : GenomicRangesList) : List String :=
  ((allCalls variants_list).filter
    (fun vc => overlapHit P excluded_regions_list vc)).map VariantCall.id

/-- `variant_passed = Variant(id=variant.id)` followed by
`add_variant_call` on each collected call, in order; an exception
propagates. -/
def rebuildVariant (id : String) (calls : List VariantCall) :
    Except String Variant :=
  calls.foldlM Variant.add_variant_call ⟨id, []⟩

/-- The per-variant body of the Step-2 loop of `filter_excluded_regions`:
partition the variant's calls by membership of their IDs in the rejected
set, rebuild a passed and a rejected variant, and append each to its
output list only when it still holds at least one call. -/
def filterStep (rejected : List String) (acc : VariantsList × VariantsList)
    (variant : Variant) : Except String (VariantsList × VariantsList) := do
  let variant_calls_passed :=
    variant.variant_calls.filter (fun vc => !(rejected.contains vc.id))
  let variant_calls_rejected :=
    variant.variant_calls.filter (fun vc => rejected.contains vc.id)
  let variant_passed ← rebuildVariant variant.id variant_calls_passed
  let variant_rejected ← rebuildVariant variant.id variant_calls_rejected
  pure
    ((if variant_passed.variant_calls.length > 0 then
        acc.1.add_variant variant_passed
      else acc.1),
     (if variant_rejected.variant_calls.length > 0 then
        acc.2.add_variant variant_rejected
      else acc.2))

/-- `filter_excluded_regions`: compute the rejected call IDs from the
overlap mapping, then run the partition-and-rebuild loop over the
variants.  `add_variant_call` can raise, so the result is `Except`-typed
exactly as the Python can propagate an exception. -/
def filter_excluded_regions (P : Int) (variants_list : VariantsList)
    (excluded_regions_list : GenomicRangesList) :
    Except String (VariantsList × VariantsList) :=
  variants_list.variants.foldlM
    (filterStep (rejectedVariantCallIds P variants_list excluded_regions_list))
    (VariantsList.empty, VariantsList.empty)

/-! ## Match oracle and subtract

`VariantsList.subtract` delegates to `vstolibrs.subtract_variants_list` in
the compiled Rust core, which is not part of the source tree; the pairwise
subtraction and its oracle are modelled from the spec.  The multi-query
driver `subtract` (src/python/vstolib/main.py, lines 524-569) is embedded
from the Python source. -/

/-- The match-parameter bundle of spec §4.3; the size-overlap fractions are
modelled as rationals. -/
structure MatchParams where
  max_neighbor_distance : Int
  match_all_breakpoints : Bool
  match_variant_types : Bool
  min_ins_size_overlap : ℚ
  min_del_size_overlap : ℚ
deriving DecidableEq, Repr

/-- Modelled from the spec: step 1 of the oracle — the unordered
breakpoint-chromosome pairs agree as multisets. -/
def chromPairMatch (a b : VariantCall) : Bool :=
  decide ((a.chromosome_1 = b.chromosome_1 ∧ a.chromosome_2 = b.chromosome_2) ∨
    (a.chromosome_1 = b.chromosome_2 ∧ a.chromosome_2 = b.chromosome_1))

/-- Modelled from the spec: step 2 — both calls fall in the same
variant-type class of `QueryTypeDictionary`. -/
def sameTypeClass (a b : VariantCall) : Bool :=
  (classOf a.variant_type).contains b.variant_type

/-- Modelled from the spec: step 3 — one candidate alignment of the two
breakpoint pairs; feasible only if the paired chromosomes agree, and then
the distance rule (`max` of the two deltas if `match_all_breakpoints`,
else `min`) must stay within `max_neighbor_distance`. -/
def alignmentOk (p : MatchParams) (c1 c1q : String) (p1 p1q : Int)
    (c2 c2q : String) (p2 p2q : Int) : Bool :=
  if c1 = c1q ∧ c2 = c2q then
    let d1 := |p1 - p1q|
    let d2 := |p2 - p2q|
    if p.match_all_breakpoints then
      decide (max d1 d2 ≤ p.max_neighbor_distance)
    else
      decide (min d1 d2 ≤ p.max_neighbor_distance)
  else
    false

/-- Modelled from the spec: step 4 — reciprocal size overlap for the
`{INS, DUP}` and `{DEL}` classes; a size that is zero or unknown
(sentinel `-1`) gives ratio `0`. -/
def sizeReciprocityOk (p : MatchParams) (a b : VariantCall) : Bool :=
  let ratio : ℚ :=
    if a.variant_size ≤ 0 ∨ b.variant_size ≤ 0 then 0
    else (min a.variant_size b.variant_size : ℚ) /
      (max a.variant_size b.variant_size : ℚ)
  if (classOf "INS").contains a.variant_type &&
      (classOf "INS").contains b.variant_type then
    decide (ratio ≥ p.min_ins_size_overlap)
  else if a.variant_type == "DEL" && b.variant_type == "DEL" then
    decide (ratio ≥ p.min_del_size_overlap)
  else
    true

/-- Modelled from the spec: the match oracle of §4.3 — chromosome-pair
constraint, optional type grouping, breakpoint distances over the direct
and swapped alignments, and size reciprocity. -/
def matchOracle (p : MatchParams) (a b : VariantCall) : Bool :=
  chromPairMatch a b &&
    (!p.match_variant_types || sameTypeClass a b) &&
    (alignmentOk p a.chromosome_1 b.chromosome_1 a.position_1 b.position_1
        a.chromosome_2 b.chromosome_2 a.position_2 b.position_2 ||
      alignmentOk p a.chromosome_1 b.chromosome_2 a.position_1 b.position_2
        a.chromosome_2 b.chromosome_1 a.position_2 b.position_1) &&
    sizeReciprocityOk p a b

/-- Modelled from the spec: `vstolibrs.subtract_variants_list` — pairwise
subtract of §4.4.4: keep exactly the calls of the target with no oracle
match in the query, re-attached under their original variant IDs; variants
with zero surviving calls are dropped. -/
def subtractPair (p : MatchParams) (t q : VariantsList) : VariantsList :=
  ⟨t.variants.filterMap
    (fun v =>
      let surviving := v.variant_calls.filter
        (fun c =>
          !(q.variants.any
            (fun w => w.variant_calls.any (fun c' => matchOracle p c c'))))
      if surviving.isEmpty then none else some ⟨v.id, surviving⟩)⟩

/-- `subtract` (src/python/vstolib/main.py): deep-copy the target — the
identity on immutable values — then subtract each query list in turn,
reassigning the accumulator. -/
def subtract (p : MatchParams) (target_variants_list : VariantsList)
    (query_variants_lists : List VariantsList) : VariantsList :=
  query_variants_lists.foldl
    (fun vl_subtracted variants_list => subtractPair p vl_subtracted variants_list)
    target_variants_list

/-! ## DataFrame loading (src/python/vstolib/variants_list.py, load_dataframe)

A pandas `DataFrame` is modelled as a column-name list plus one
association list (column → cell) per row; a cell is a string or an
integer.  `str(...)` is total, `int(...)` can raise `ValueError`. -/

inductive Cell where
  | str (s : String)
  | int (n : Int)
deriving DecidableEq, Repr

/-- Python `str(cell)`. -/
def pyStr : Cell → String
  | .str s => s
  | .int n => toString n

/-- Python `int(cell)`: the identity on integers, decimal parsing on
strings, `ValueError` when the string does not parse. -/
def pyInt : Cell → Except String Int
  | .int n => .ok n
  | .str s =>
    match s.toInt? with
    | some n => .ok n
    | none => .error ("invalid literal for int with base 10: " ++ s)

/-- One row of `df.to_dict(records)`: column name → cell.  A lookup of an
absent column raises `KeyError`. -/
abbrev Row : Type := List (String × Cell)

def rowGet (row : Row) (k : String) : Except String Cell :=
  match List.lookup k row with
  | some v => .ok v
  | none => .error ("KeyError: " ++ k)

structure DataFrame where
  columns : List String
  rows : List Row
deriving DecidableEq

/-- The ten mandatory columns of the canonical variant table. -/
def mandatoryColumns : List String :=
  ["variant_id", "variant_call_id", "sample_id", "chromosome_1",
   "position_1", "chromosome_2", "position_2", "variant_type",
   "reference_allele", "alternate_allele"]

/-- The sequential missing-column checks opening `load_dataframe`
(source lines 461-481), in source order. -/
def checkMandatoryColumns (columns : List String) : Except String Unit :=
  if "variant_id" ∉ columns then
    .error "The column variant_id must exist."
  else if "variant_call_id" ∉ columns then
    .error "The column variant_call_id must exist."
  else if "sample_id" ∉ columns then
    .error "The column sample_id must exist."
  else if "chromosome_1" ∉ columns then
    .error "The column chromosome_1 must exist."
  else if "position_1" ∉ columns then
    .error "The column position_1 must exist."
  else if "chromosome_2" ∉ columns then
    .error "The column chromosome_2 must exist."
  else if "position_2" ∉ columns then
    .error "The column position_2 must exist."
  else if "variant_type" ∉ columns then
    .error "The column variant_type must exist."
  else if "reference_allele" ∉ columns then
    .error "The column reference_allele must exist."
  else if "alternate_allele" ∉ columns then
    .error "The column alternate_allele must exist."
  else
    .ok ()

/-- The `VariantCall(...)` construction from one row (source lines
487-497): `str` and `int` conversions of the nine mandatory fields, no
validation of any kind.  The optional-field enrichment that follows in the
source only fills the elided optional fields and is not embedded. -/
def mkVariantCallFromRow (row : Row) : Except String VariantCall := do
  let id ← rowGet row "variant_call_id"
  let sample_id ← rowGet row "sample_id"
  let chromosome_1 ← rowGet row "chromosome_1"
  let position_1 ← rowGet row "position_1" >>= pyInt
  let chromosome_2 ← rowGet row "chromosome_2"
  let position_2 ← rowGet row "position_2" >>= pyInt
  let variant_type ← rowGet row "variant_type"
  let reference_allele ← rowGet row "reference_allele"
  let alternate_allele ← rowGet row "alternate_allele"
  pure
    { id := pyStr id
      sample_id := pyStr sample_id
      chromosome_1 := pyStr chromosome_1
      position_1 := position_1
      chromosome_2 := pyStr chromosome_2
      position_2 := position_2
      variant_type := pyStr variant_type
      reference_allele := pyStr reference_allele
      alternate_allele := pyStr alternate_allele }

/-- In-place update of the insertion-ordered `variants` dict. -/
def updateAssoc (m : List (String × Variant)) (k : String) (v : Variant) :
    List (String × Variant) :=
  match m with
  | [] => [(k, v)]
  | (k', v') :: rest =>
    if k' = k then (k, v) :: rest else (k', v') :: updateAssoc rest k v

/-- The per-row body of `load_dataframe`: read `variant_id`, construct the
call, fetch or create the variant of that ID, and add the call through
`Variant.add_variant_call` — whose exception propagates. -/
def loadRowStep (variants : List (String × Variant)) (row : Row) :
    Except String (List (String × Variant)) := do
  let variant_id := pyStr (← rowGet row "variant_id")
  let variant_call ← mkVariantCallFromRow row
  let v :=
    match List.lookup variant_id variants with
    | some v => v
    | none => Variant.mk variant_id []
  let v' ← v.add_variant_call variant_call
  pure (updateAssoc variants variant_id v')

/-- `VariantsList.load_dataframe`: check the mandatory columns, then group
the rows into `Variant` objects keyed by `variant_id` (a dict preserving
insertion order). -/
def load_dataframe (df : DataFrame) : Except String VariantsList := do
  let _ ← checkMandatoryColumns df.columns
  let variants ← df.rows.foldlM loadRowStep []
  pure ⟨variants.map Prod.snd⟩

/-- Every column name read anywhere by `load_dataframe` (the ten mandatory
columns, the optional scalar fields, the three multi-valued fields,
`attributes`, and the two blocks of eighteen per-breakpoint annotation
columns).  A column outside this list is unrecognized and never read. -/
def recognizedColumns : List String :=
  mandatoryColumns ++
  ["source_id", "phase_block_id", "clone_id", "nucleic_acid",
   "variant_calling_method", "sequencing_platform", "filter",
   "quality_score", "precise", "variant_subtype", "variant_size",
   "total_read_count", "reference_allele_read_count",
   "alternate_allele_read_count", "alternate_allele_fraction",
   "average_alignment_score_window",
   "position_1_average_alignment_score",
   "position_2_average_alignment_score",
   "alternate_allele_read_ids", "variant_sequences", "attributes", "tags"] ++
  (["annotator", "annotator_version", "gene_id", "gene_id_stable",
    "gene_name", "gene_strand", "gene_type", "gene_version",
    "transcript_id", "transcript_id_stable", "transcript_name",
    "transcript_strand", "transcript_type", "transcript_version",
    "exon_id", "exon_id_stable", "region", "species"].map
      (fun s => "position_1_annotation_" ++ s)) ++
  (["annotator", "annotator_version", "gene_id", "gene_id_stable",
    "gene_name", "gene_strand", "gene_type", "gene_version",
    "transcript_id", "transcript_id_stable", "transcript_name",
    "transcript_strand", "transcript_type", "transcript_version",
    "exon_id", "exon_id_stable", "region", "species"].map
      (fun s => "position_2_annotation_" ++ s))

/-- Appending one extra column named `c`, whose cell in each row is an
arbitrary function of the row, to a data frame. -/
def addColumn (df : DataFrame) (c : String) (f : Row → Cell) : DataFrame :=
  ⟨df.columns ++ [c], df.rows.map (fun r => r ++ [(c, f r)])⟩

/-! ## Auxiliary constructions used by the statements -/

/-- A `GenomicRangesList()` grown by a sequence of `add_genomic_range`
operations. -/
def buildGenomicRangesList (rs : List GenomicRange) : GenomicRangesList :=
  rs.foldl GenomicRangesList.add_genomic_range GenomicRangesList.empty

/-- Whether an `Except` value carries a success. -/
def exceptIsOk {α : Type} (e : Except String α) : Bool :=
  match e with
  | .ok _ => true
  | .error _ => false

/-- The non-strict version of the locus order of `VariantCall.__lt__`,
used to state sortedness. -/
def keyLe (a b : VariantCall) : Prop := locusKey a ≤ locusKey b

/-- A call list sorted by `(chromosome_1, position_1, chromosome_2,
position_2)`. -/
def sortedByLocus (l : List VariantCall) : Prop :=
  l.Pairwise keyLe

/-- All calls of a list share `chromosome_1` and `chromosome_2`. -/
def UniformChrom (l : List VariantCall) : Prop :=
  ∀ a ∈ l, ∀ b ∈ l,
    a.chromosome_1 = b.chromosome_1 ∧ a.chromosome_2 = b.chromosome_2

/-- Every variant of the list has chromosome-uniform calls — the invariant
every `VariantsList` built through `add_variant_call` enjoys. -/
def WellFormed (vl : VariantsList) : Prop :=
  ∀ v ∈ vl.variants, UniformChrom v.variant_calls

/-! ## Concrete example inputs -/

/-- A well-typed row with an inverted locus: `chromosome_1 = chromosome_2`
and `position_1 = 10 > 5 = position_2` for an INS record. -/
def rowInvertedLocus : Row :=
  [("variant_id", .str "v1"), ("variant_call_id", .str "c1"),
   ("sample_id", .str "s1"), ("chromosome_1", .str "chr1"),
   ("position_1", .int 10), ("chromosome_2", .str "chr1"),
   ("position_2", .int 5), ("variant_type", .str "INS"),
   ("reference_allele", .str "A"), ("alternate_allele", .str "AT")]

/-- A well-typed row whose `variant_type` is not one of the eight known
types. -/
def rowUnknownType : Row :=
  [("variant_id", .str "v1"), ("variant_call_id", .str "c2"),
   ("sample_id", .str "s1"), ("chromosome_1", .str "chr1"),
   ("position_1", .int 5), ("chromosome_2", .str "chr1"),
   ("position_2", .int 10), ("variant_type", .str "FOO"),
   ("reference_allele", .str "A"), ("alternate_allele", .str "T")]

/-- A data frame carrying all ten mandatory columns and two well-typed
rows that share `variant_id` `v1` but disagree on `chromosome_1`. -/
def dfSharedIdDifferentChrom : DataFrame :=
  ⟨mandatoryColumns,
   [[("variant_id", .str "v1"), ("variant_call_id", .str "c1"),
     ("sample_id", .str "s1"), ("chromosome_1", .str "chr1"),
     ("position_1", .int 100), ("chromosome_2", .str "chr1"),
     ("position_2", .int 100), ("variant_type", .str "SNV"),
     ("reference_allele", .str "A"), ("alternate_allele", .str "T")],
    [("variant_id", .str "v1"), ("variant_call_id", .str "c2"),
     ("sample_id", .str "s1"), ("chromosome_1", .str "chr2"),
     ("position_1", .int 100), ("chromosome_2", .str "chr2"),
     ("position_2", .int 100), ("variant_type", .str "SNV"),
     ("reference_allele", .str "A"), ("alternate_allele", .str "T")]]⟩

/-- A data frame with one well-formed row, used to exercise extra-column
invariance. -/
def dfOneRow : DataFrame :=
  ⟨mandatoryColumns,
   [[("variant_id", .str "v1"), ("variant_call_id", .str "c1"),
     ("sample_id", .str "s1"), ("chromosome_1", .str "chr1"),
     ("position_1", .int 100), ("chromosome_2", .str "chr1"),
     ("position_2", .int 100), ("variant_type", .str "SNV"),
     ("reference_allele", .str "A"), ("alternate_allele", .str "T")]]⟩

/-- One excluded region, `chr1:90-110`. -/
def grlExcluded : GenomicRangesList :=
  ⟨[("chr1", [GenomicRange.mk "chr1" 90 110])]⟩

/-- A call at `chr1:100`, inside the excluded region. -/
def callHit : VariantCall :=
  VariantCall.mk "c1" "s1" "chr1" 100 "chr1" 100 "SNV" "A" "T" (-1)

/-- A call at `chr1:500`, clear of the excluded region. -/
def callClear : VariantCall :=
  VariantCall.mk "c2" "s1" "chr1" 500 "chr1" 500 "SNV" "C" "G" (-1)

/-- One variant holding both `callHit` and `callClear`. -/
def vlMixed : VariantsList :=
  ⟨[⟨"v1", [callHit, callClear]⟩]⟩

/-! # Helper lemmas -/

theorem strLt_iff (a b : String) : strLt a b = true ↔ a < b := by
  simp [strLt, String.lt_iff_toList_lt]

theorem overlaps_eq_true_iff (g : GenomicRange) (c : String) (s e : Int) :
    g.overlaps c s e = true ↔ (c = g.chromosome ∧ s ≤ g.«end» ∧ e ≥ g.start) := by
  simp only [GenomicRange.overlaps]
  split
  · simp_all
  · simp_all

theorem mem_find_overlaps (grl : GenomicRangesList) (c : String) (s e : Int)
    (r : GenomicRange) :
    r ∈ grl.find_overlaps c s e ↔
      (r ∈ lookupChrom grl.genomic_ranges_map c ∧ r.overlaps c s e = true) := by
  simp [GenomicRangesList.find_overlaps, List.mem_filter]

/-! # Claim C2 -/

/-- C2: `GenomicRange.overlaps(chromosome, start, end)` is true exactly
when the chromosome matches and the closed intervals intersect
(`start ≤ g.end` and `end ≥ g.start`); hence `find_overlaps` returns
exactly the stored ranges on the queried chromosome whose interval
intersects the query, a query padded by `P` around a position reports
exactly the ranges with `position ∈ [start − P, end + P]`, and a query on
a chromosome with no stored ranges returns the empty list. -/
theorem C2_overlaps_find_overlaps_spec :
    (∀ (g : GenomicRange) (c : String) (s e : Int), s ≤ e →
      (g.overlaps c s e = true ↔
        (c = g.chromosome ∧ s ≤ g.«end» ∧ e ≥ g.start))) ∧
    (∀ (grl : GenomicRangesList) (c : String) (s e : Int) (r : GenomicRange),
      r ∈ grl.find_overlaps c s e ↔
        (r ∈ lookupChrom grl.genomic_ranges_map c ∧ r.overlaps c s e = true)) ∧
    (∀ (grl : GenomicRangesList) (c : String) (pos P : Int) (r : GenomicRange),
      r ∈ grl.find_overlaps c (pos - P) (pos + P) ↔
        (r ∈ lookupChrom grl.genomic_ranges_map c ∧ c = r.chromosome ∧
          r.start - P ≤ pos ∧ pos ≤ r.«end» + P)) ∧
    (∀ (grl : GenomicRangesList) (c : String) (s e : Int),
      List.lookup c grl.genomic_ranges_map = none →
        grl.find_overlaps c s e = []) := by
  refine ⟨?_, ?_, ?_, ?_⟩
  · intro g c s e _
    exact overlaps_eq_true_iff g c s e
  · intro grl c s e r
    exact mem_find_overlaps grl c s e r
  · intro grl c pos P r
    rw [mem_find_overlaps, overlaps_eq_true_iff]
    constructor
    · rintro ⟨hm, hc, h1, h2⟩
      exact ⟨hm, hc, by omega, by omega⟩
    · rintro ⟨hm, hc, h1, h2⟩
      exact ⟨hm, hc, by omega, by omega⟩
  · intro grl c s e h
    simp [GenomicRangesList.find_overlaps, lookupChrom, h]

/-- Witness for C2 at concrete inputs: the interval test at
`GenomicRange("chr1", 10, 20)` with query `[5, 15]`, and an empty
`GenomicRangesList` queried on an absent chromosome. -/
theorem C2_overlaps_find_overlaps_spec_witness :
    ((GenomicRange.mk "chr1" 10 20).overlaps "chr1" 5 15 = true ↔
      ("chr1" = "chr1" ∧ (5 : Int) ≤ 20 ∧ (15 : Int) ≥ 10)) ∧
    GenomicRangesList.empty.find_overlaps "chr1" 1 2 = [] :=
  ⟨C2_overlaps_find_overlaps_spec.1 (GenomicRange.mk "chr1" 10 20)
     "chr1" 5 15 (by decide),
   C2_overlaps_find_overlaps_spec.2.2.2 GenomicRangesList.empty
     "chr1" 1 2 rfl⟩

/-! # Claim C7 -/

/-- C7: overlap hits are monotone in the padding.  For `P ≤ P'`, a hit of
the padded query `[pos − P, pos + P]` against `GenomicRange.overlaps` is
still a hit at `P'`; every range returned by `find_overlaps` at `P` is
returned at `P'`; a point stabbing the index interval
`[start − P, end + P)` of `index_genomic_ranges_list` stabs the `P'`
interval; and a call hitting a region list under the overlap mapping at
`P` hits it at `P'`. -/
theorem C7_overlap_monotone_in_padding :
    ∀ (P P' : Int), P ≤ P' →
      (∀ (g : GenomicRange) (c : String) (pos : Int),
        g.overlaps c (pos - P) (pos + P) = true →
        g.overlaps c (pos - P') (pos + P') = true) ∧
      (∀ (grl : GenomicRangesList) (c : String) (pos : Int) (r : GenomicRange),
        r ∈ grl.find_overlaps c (pos - P) (pos + P) →
        r ∈ grl.find_overlaps c (pos - P') (pos + P')) ∧
      (∀ (g : GenomicRange) (q : Int),
        indexHit P g q = true → indexHit P' g q = true) ∧
      (∀ (g : GenomicRange) (c : String) (pos : Int),
        rangeContains P g c pos = true → rangeContains P' g c pos = true) ∧
      (∀ (grl : GenomicRangesList) (vc : VariantCall),
        overlapHit P grl vc = true → overlapHit P' grl vc = true) := by
  intro P P' hPP
  have hover : ∀ (g : GenomicRange) (c : String) (pos : Int),
      g.overlaps c (pos - P) (pos + P) = true →
      g.overlaps c (pos - P') (pos + P') = true := by
    intro g c pos h
    rw [overlaps_eq_true_iff] at h ⊢
    exact ⟨h.1, by omega, by omega⟩
  have hrange : ∀ (g : GenomicRange) (c : String) (pos : Int),
      rangeContains P g c pos = true → rangeContains P' g c pos = true := by
    intro g c pos h
    simp only [rangeContains, decide_eq_true_eq] at h ⊢
    exact ⟨h.1, by omega, by omega⟩
  refine ⟨hover, ?_, ?_, hrange, ?_⟩
  · intro grl c pos r h
    rw [mem_find_overlaps] at h ⊢
    exact ⟨h.1, hover r c pos h.2⟩
  · intro g q h
    simp only [indexHit, decide_eq_true_eq] at h ⊢
    omega
  · intro grl vc h
    simp only [overlapHit, List.any_eq_true, Bool.or_eq_true] at h ⊢
    obtain ⟨g, hg, hcase⟩ := h
    exact ⟨g, hg, hcase.imp (hrange g _ _) (hrange g _ _)⟩

/-- Witness for C7: padding 1 versus 3 on `GenomicRange("chr1", 10, 20)`
queried around position 21 — a hit at padding 1 is still a hit at 3. -/
theorem C7_overlap_monotone_in_padding_witness :
    (GenomicRange.mk "chr1" 10 20).overlaps "chr1" (21 - 3) (21 + 3) = true :=
  (C7_overlap_monotone_in_padding 1 3 (by decide)).1
    (GenomicRange.mk "chr1" 10 20) "chr1" 21 (by decide)

/-! # Claim C9 -/

/-- C9: `QueryTypeDictionary` maps each of the eight variant types to
exactly the member set of its class among
`{SNV}, {MNV}, {INS, DUP}, {DEL}, {BND, INV, TRA}`, every type belongs to
its own class, and the same-class relation is symmetric over the eight
types. -/
theorem C9_query_type_dictionary_classes :
    (classOf "SNV" = ["SNV"] ∧ classOf "MNV" = ["MNV"] ∧
     classOf "INS" = ["DUP", "INS"] ∧ classOf "DEL" = ["DEL"] ∧
     classOf "INV" = ["BND", "INV", "TRA"] ∧
     classOf "DUP" = ["DUP", "INS"] ∧
     classOf "TRA" = ["BND", "INV", "TRA"] ∧
     classOf "BND" = ["BND", "INV", "TRA"]) ∧
    (∀ a ∈ variantTypesAll, a ∈ classOf a) ∧
    (∀ a ∈ variantTypesAll, ∀ b ∈ variantTypesAll,
      (b ∈ classOf a ↔ a ∈ classOf b)) := by
  decide

/-! # Claim C3 -/

/-- C3 (code bug): `GenomicRange.__eq__` compares
`(self.chromosome, self.start, self.end)` with
`(other.chromosome, other.start, self.end)` — `self.end` on both sides —
so the two ranges `("chr1", 1, 5)` and `("chr1", 1, 9)`, which agree on
chromosome and start but differ on end, are reported equal by the code,
while the claim (and the intended locus equality) says they are not
equal.  The twin `VariantCall` comparison uses `other`'s fields
correctly. -/
theorem C3_genomic_range_eq_ignores_end :
    grEqCode (GenomicRange.mk "chr1" 1 5) (GenomicRange.mk "chr1" 1 9) = true ∧
    (GenomicRange.mk "chr1" 1 5).«end» ≠ (GenomicRange.mk "chr1" 1 9).«end» ∧
    grLtCode (GenomicRange.mk "chr1" 1 5) (GenomicRange.mk "chr1" 1 9) = false := by
  decide

/-! # Claim C6 -/

/-- C6: multi-query `subtract` is the left fold of pairwise subtraction —
subtracting no query list returns the target unchanged (the deep copy of
an immutable value), and subtracting `qs ++ [q]` subtracts `q` from the
result of subtracting `qs`. -/
theorem C6_subtract_left_fold :
    (∀ (p : MatchParams) (T : VariantsList), subtract p T [] = T) ∧
    (∀ (p : MatchParams) (T : VariantsList) (qs : List VariantsList)
        (q : VariantsList),
      subtract p T (qs ++ [q]) = subtractPair p (subtract p T qs) q) := by
  constructor
  · intro p T
    rfl
  · intro p T qs q
    simp [subtract, List.foldl_append]

/-! # Claim C10 -/

theorem keys_addToMap (m : List (String × List GenomicRange))
    (g : GenomicRange) :
    (addToMap m g).map Prod.fst =
      if g.chromosome ∈ m.map Prod.fst then m.map Prod.fst
      else m.map Prod.fst ++ [g.chromosome] := by
  induction m with
  | nil => simp [addToMap]
  | cons hd tl ih =>
    obtain ⟨c, rs⟩ := hd
    by_cases hc : c = g.chromosome
    · subst hc
      simp [addToMap]
    · simp only [addToMap, if_neg hc, List.map_cons, ih, List.mem_cons]
      have : ¬ g.chromosome = c := fun h => hc h.symm
      by_cases hmem : g.chromosome ∈ tl.map Prod.fst
      · simp [hmem, this]
      · simp [hmem, this]

theorem keys_buildFold (rs : List GenomicRange)
    (m : List (String × List GenomicRange)) :
    ((rs.foldl GenomicRangesList.add_genomic_range ⟨m⟩).genomic_ranges_map.map
        Prod.fst).toFinset =
      (m.map Prod.fst).toFinset ∪ (rs.map GenomicRange.chromosome).toFinset ∧
    ((m.map Prod.fst).Nodup →
      ((rs.foldl GenomicRangesList.add_genomic_range
          ⟨m⟩).genomic_ranges_map.map Prod.fst).Nodup) := by
  induction rs generalizing m with
  | nil => simp
  | cons g rs ih =>
    have hstep : (GenomicRangesList.add_genomic_range ⟨m⟩ g) =
        (⟨addToMap m g⟩ : GenomicRangesList) := rfl
    simp only [List.foldl_cons, hstep]
    obtain ⟨ihA, ihB⟩ := ih (addToMap m g)
    constructor
    · rw [ihA, keys_addToMap]
      by_cases hmem : g.chromosome ∈ m.map Prod.fst
      · rw [if_pos hmem]
        ext x
        simp only [Finset.mem_union, List.mem_toFinset, List.map_cons,
          List.mem_cons]
        constructor
        · tauto
        · rintro (h | rfl | h)
          · tauto
          · exact Or.inl hmem
          · tauto
      · rw [if_neg hmem]
        ext x
        simp only [Finset.mem_union, List.mem_toFinset, List.mem_append,
          List.map_cons, List.mem_cons, List.mem_singleton]
        tauto
    · intro hnd
      apply ihB
      rw [keys_addToMap]
      by_cases hmem : g.chromosome ∈ m.map Prod.fst
      · rw [if_pos hmem]
        exact hnd
      · rw [if_neg hmem]
        simp [List.nodup_append, hnd, hmem]

/-- C10: on a `GenomicRangesList` grown by `add_genomic_range`, `size` and
`num_genomic_regions` both count the distinct chromosomes carrying at
least one range — not the stored `GenomicRange` objects: in particular
adding any non-empty batch of ranges on one single chromosome leaves both
properties at 1. -/
theorem C10_size_counts_chromosomes :
    (∀ rs : List GenomicRange,
      (buildGenomicRangesList rs).size =
          (rs.map GenomicRange.chromosome).toFinset.card ∧
      (buildGenomicRangesList rs).num_genomic_regions =
          (rs.map GenomicRange.chromosome).toFinset.card) ∧
    (∀ (c : String) (rs : List GenomicRange), rs ≠ [] →
      (∀ r ∈ rs, r.chromosome = c) →
      (buildGenomicRangesList rs).size = 1 ∧
        (buildGenomicRangesList rs).num_genomic_regions = 1) := by
  have hsize : ∀ rs : List GenomicRange,
      (buildGenomicRangesList rs).size =
        (rs.map GenomicRange.chromosome).toFinset.card := by
    intro rs
    obtain ⟨hA, hB⟩ := keys_buildFold rs []
    have hnd := hB (by simp)
    have hlen := List.toFinset_card_of_nodup hnd
    simp only [List.map_nil, List.toFinset_nil, Finset.empty_union] at hA
    have hbe : buildGenomicRangesList rs =
        rs.foldl GenomicRangesList.add_genomic_range ⟨[]⟩ := rfl
    have : (buildGenomicRangesList rs).size =
        ((buildGenomicRangesList rs).genomic_ranges_map.map Prod.fst).length := by
      simp [GenomicRangesList.size]
    rw [this, hbe, ← hlen, hA]
  refine ⟨fun rs => ⟨hsize rs, hsize rs⟩, ?_⟩
  intro c rs hne hall
  have hfin : (rs.map GenomicRange.chromosome).toFinset = {c} := by
    ext x
    simp only [List.mem_toFinset, List.mem_map, Finset.mem_singleton]
    constructor
    · rintro ⟨r, hr, rfl⟩
      exact hall r hr
    · rintro rfl
      obtain ⟨r, hr⟩ := List.exists_mem_of_ne_nil rs hne
      exact ⟨r, hr, hall r hr⟩
  constructor
  · rw [hsize rs, hfin]
    rfl
  · rw [show (buildGenomicRangesList rs).num_genomic_regions =
      (buildGenomicRangesList rs).size from rfl, hsize rs, hfin]
    rfl

/-! # Claim C5: sorted-insertion machinery -/

theorem vcLt_iff (a b : VariantCall) :
    vcLt a b = true ↔ locusKey a < locusKey b := by
  simp only [vcLt, locusKey, Bool.or_eq_true, Bool.and_eq_true,
    decide_eq_true_eq, beq_iff_eq, strLt_iff, Prod.Lex.lt_iff]

theorem not_vcLt_iff (a b : VariantCall) :
    vcLt a b = false ↔ locusKey b ≤ locusKey a := by
  rw [← not_lt, ← vcLt_iff]
  cases h : vcLt a b <;> simp

theorem mem_insortR (x y : VariantCall) (l : List VariantCall) :
    y ∈ insortR x l ↔ y = x ∨ y ∈ l := by
  induction l with
  | nil => simp [insortR]
  | cons z l ih =>
    simp only [insortR]
    by_cases h : vcLt x z = true
    · rw [if_pos h]
      simp only [List.mem_cons]
    · rw [if_neg h]
      simp only [List.mem_cons, ih]
      tauto

theorem perm_insortR (x : VariantCall) (l : List VariantCall) :
    (insortR x l).Perm (x :: l) := by
  induction l with
  | nil => exact List.Perm.refl _
  | cons z l ih =>
    simp only [insortR]
    by_cases h : vcLt x z = true
    · rw [if_pos h]
    · rw [if_neg h]
      exact (ih.cons z).trans (List.Perm.swap x z l)

theorem sorted_insortR (x : VariantCall) (l : List VariantCall)
    (h : sortedByLocus l) : sortedByLocus (insortR x l) := by
  induction l with
  | nil =>
    refine List.Pairwise.cons ?_ List.Pairwise.nil
    intro b hb
    cases hb
  | cons z l ih =>
    obtain ⟨hz, hl⟩ := List.pairwise_cons.1 h
    simp only [insortR]
    by_cases hlt : vcLt x z = true
    · rw [if_pos hlt]
      refine List.pairwise_cons.2 ⟨?_, List.pairwise_cons.2 ⟨hz, hl⟩⟩
      have hxz : keyLe x z := le_of_lt ((vcLt_iff x z).1 hlt)
      intro b hb
      rcases List.mem_cons.1 hb with rfl | hb
      · exact hxz
      · exact le_trans hxz (hz b hb)
    · rw [if_neg hlt]
      have hzx : keyLe z x :=
        (not_vcLt_iff x z).1 (eq_false_of_ne_true hlt)
      refine List.pairwise_cons.2 ⟨?_, ih hl⟩
      intro b hb
      rcases (mem_insortR x b l).1 hb with rfl | hb
      · exact hzx
      · exact hz b hb

theorem add_variant_call_ok (v : Variant) (vc : VariantCall) (v' : Variant)
    (h : v.add_variant_call vc = .ok v') :
    v'.id = v.id ∧ v'.variant_calls = insortR vc v.variant_calls ∧
      (v.variant_calls = [] ∨
        ∃ c0 rest, v.variant_calls = c0 :: rest ∧
          vc.chromosome_1 = c0.chromosome_1 ∧
          vc.chromosome_2 = c0.chromosome_2) := by
  obtain ⟨vid, calls⟩ := v
  cases calls with
  | nil =>
    simp only [Variant.add_variant_call, Except.ok.injEq] at h
    rw [← h]
    exact ⟨rfl, rfl, Or.inl rfl⟩
  | cons c0 rest =>
    simp only [Variant.add_variant_call] at h
    by_cases hm : vc.chromosome_1 ≠ c0.chromosome_1 ∨
        vc.chromosome_2 ≠ c0.chromosome_2
    · rw [if_pos hm] at h
      cases h
    · rw [if_neg hm] at h
      simp only [Except.ok.injEq] at h
      rw [← h]
      push_neg at hm
      exact ⟨rfl, rfl, Or.inr ⟨c0, rest, rfl, hm.1, hm.2⟩⟩

theorem add_variant_call_error (v : Variant) (vc c0 : VariantCall)
    (rest : List VariantCall) (hc : v.variant_calls = c0 :: rest)
    (hm : vc.chromosome_1 ≠ c0.chromosome_1 ∨
      vc.chromosome_2 ≠ c0.chromosome_2) :
    ∃ e, v.add_variant_call vc = .error e := by
  obtain ⟨vid, calls⟩ := v
  simp only at hc
  subst hc
  simp only [Variant.add_variant_call]
  rw [if_pos hm]
  exact ⟨_, rfl⟩

theorem add_variant_call_preserves (v : Variant) (vc : VariantCall)
    (v' : Variant) (h : v.add_variant_call vc = .ok v') :
    (sortedByLocus v.variant_calls → sortedByLocus v'.variant_calls) ∧
    (UniformChrom v.variant_calls → UniformChrom v'.variant_calls) := by
  obtain ⟨_, hcalls, hcase⟩ := add_variant_call_ok v vc v' h
  constructor
  · intro hs
    rw [hcalls]
    exact sorted_insortR vc _ hs
  · intro hu
    rw [hcalls]
    rcases hcase with hnil | ⟨c0, rest, hc, h1, h2⟩
    · rw [hnil]
      intro a ha b hb
      rcases (mem_insortR vc a []).1 ha with hea | ha
      · rcases (mem_insortR vc b []).1 hb with heb | hb
        · rw [hea, heb]
          exact ⟨rfl, rfl⟩
        · cases hb
      · cases ha
    · have hc0 : c0 ∈ v.variant_calls := by
        rw [hc]
        exact List.mem_cons_self c0 rest
      intro a ha b hb
      have key : ∀ x, x ∈ insortR vc v.variant_calls →
          x.chromosome_1 = c0.chromosome_1 ∧
            x.chromosome_2 = c0.chromosome_2 := by
        intro x hx
        rcases (mem_insortR vc x _).1 hx with hex | hx
        · rw [hex]
          exact ⟨h1, h2⟩
        · exact hu x hx c0 hc0
      obtain ⟨ha1, ha2⟩ := key a ha
      obtain ⟨hb1, hb2⟩ := key b hb
      exact ⟨ha1.trans hb1.symm, ha2.trans hb2.symm⟩

theorem buildVariant_invariant (id : String) (vcs : List VariantCall) :
    sortedByLocus (buildVariant id vcs).variant_calls ∧
      UniformChrom (buildVariant id vcs).variant_calls := by
  suffices h : ∀ (l : List VariantCall) (v : Variant),
      sortedByLocus v.variant_calls → UniformChrom v.variant_calls →
      sortedByLocus
          (l.foldl
            (fun v vc =>
              match v.add_variant_call vc with
              | .ok v' => v'
              | .error _ => v) v).variant_calls ∧
        UniformChrom
          (l.foldl
            (fun v vc =>
              match v.add_variant_call vc with
              | .ok v' => v'
              | .error _ => v) v).variant_calls by
    refine h vcs ⟨id, []⟩ ?_ ?_
    · exact List.Pairwise.nil
    · intro a ha
      cases ha
  intro l
  induction l with
  | nil =>
    intro v hs hu
    exact ⟨hs, hu⟩
  | cons vc l ih =>
    intro v hs hu
    simp only [List.foldl_cons]
    cases hadd : v.add_variant_call vc with
    | ok v' =>
      obtain ⟨hs', hu'⟩ := add_variant_call_preserves v vc v' hadd
      exact ih v' (hs' hs) (hu' hu)
    | error e =>
      exact ih v hs hu

/-- C5: a `Variant` grown from empty by any sequence of
`add_variant_call` operations keeps its calls sorted by
`(chromosome_1, position_1, chromosome_2, position_2)` and
chromosome-uniform (in Python a raised exception leaves the variant as it
was, which the fold's failure branch reflects); an add whose
`chromosome_1` or `chromosome_2` differs from the first stored call
raises; and a successful add keeps the ID, adds exactly the one new call,
and preserves sortedness by inserting at the sorted position. -/
theorem C5_add_variant_call_invariants :
    (∀ (id : String) (vcs : List VariantCall),
      sortedByLocus (buildVariant id vcs).variant_calls ∧
        UniformChrom (buildVariant id vcs).variant_calls) ∧
    (∀ (v : Variant) (vc c0 : VariantCall) (rest : List VariantCall),
      v.variant_calls = c0 :: rest →
      (vc.chromosome_1 ≠ c0.chromosome_1 ∨
        vc.chromosome_2 ≠ c0.chromosome_2) →
      ∃ e, v.add_variant_call vc = .error e) ∧
    (∀ (v : Variant) (vc : VariantCall) (v' : Variant),
      v.add_variant_call vc = .ok v' →
      v'.id = v.id ∧ v'.variant_calls.Perm (vc :: v.variant_calls) ∧
        (sortedByLocus v.variant_calls → sortedByLocus v'.variant_calls)) := by
  refine ⟨buildVariant_invariant, add_variant_call_error, ?_⟩
  intro v vc v' h
  obtain ⟨hid, hcalls, _⟩ := add_variant_call_ok v vc v' h
  exact ⟨hid, hcalls ▸ perm_insortR vc v.variant_calls,
    (add_variant_call_preserves v vc v' h).1⟩

/-- Witness for C5: building a variant from two concrete calls, a
rejected add with a foreign chromosome, and a successful add that inserts
a call at the sorted position. -/
theorem C5_add_variant_call_invariants_witness :
    (sortedByLocus
        (buildVariant "v1"
          [VariantCall.mk "c1" "s1" "chr1" 100 "chr1" 100 "SNV" "A" "T" (-1),
           VariantCall.mk "c2" "s1" "chr1" 40 "chr1" 40 "SNV" "C" "G" (-1)]).variant_calls ∧
      UniformChrom
        (buildVariant "v1"
          [VariantCall.mk "c1" "s1" "chr1" 100 "chr1" 100 "SNV" "A" "T" (-1),
           VariantCall.mk "c2" "s1" "chr1" 40 "chr1" 40 "SNV" "C" "G" (-1)]).variant_calls) ∧
    (∃ e,
      (Variant.mk "v1"
          [VariantCall.mk "c1" "s1" "chr1" 100 "chr1" 100 "SNV" "A" "T" (-1)]).add_variant_call
        (VariantCall.mk "c3" "s1" "chr2" 5 "chr2" 6 "SNV" "A" "T" (-1)) =
        .error e) ∧
    (Variant.mk "v1"
        [VariantCall.mk "c0" "s1" "chr1" 50 "chr1" 50 "SNV" "A" "T" (-1),
         VariantCall.mk "c1" "s1" "chr1" 100 "chr1" 100 "SNV" "A" "T" (-1)]).variant_calls.Perm
      (VariantCall.mk "c0" "s1" "chr1" 50 "chr1" 50 "SNV" "A" "T" (-1) ::
        (Variant.mk "v1"
          [VariantCall.mk "c1" "s1" "chr1" 100 "chr1" 100 "SNV" "A" "T" (-1)]).variant_calls) :=
  ⟨C5_add_variant_call_invariants.1 "v1"
      [VariantCall.mk "c1" "s1" "chr1" 100 "chr1" 100 "SNV" "A" "T" (-1),
       VariantCall.mk "c2" "s1" "chr1" 40 "chr1" 40 "SNV" "C" "G" (-1)],
   C5_add_variant_call_invariants.2.1
      (Variant.mk "v1"
        [VariantCall.mk "c1" "s1" "chr1" 100 "chr1" 100 "SNV" "A" "T" (-1)])
      (VariantCall.mk "c3" "s1" "chr2" 5 "chr2" 6 "SNV" "A" "T" (-1))
      (VariantCall.mk "c1" "s1" "chr1" 100 "chr1" 100 "SNV" "A" "T" (-1)) []
      rfl (Or.inl (by decide)),
   (C5_add_variant_call_invariants.2.2
      (Variant.mk "v1"
        [VariantCall.mk "c1" "s1" "chr1" 100 "chr1" 100 "SNV" "A" "T" (-1)])
      (VariantCall.mk "c0" "s1" "chr1" 50 "chr1" 50 "SNV" "A" "T" (-1))
      (Variant.mk "v1"
        [VariantCall.mk "c0" "s1" "chr1" 50 "chr1" 50 "SNV" "A" "T" (-1),
         VariantCall.mk "c1" "s1" "chr1" 100 "chr1" 100 "SNV" "A" "T" (-1)])
      (by rfl)).2.1⟩

/-- Witness for C10: three ranges, all on `chr1` — both size properties
report 1 even though three ranges are stored. -/
theorem C10_size_counts_chromosomes_witness :
    (buildGenomicRangesList
        [GenomicRange.mk "chr1" 1 5, GenomicRange.mk "chr1" 7 9,
         GenomicRange.mk "chr1" 2 3]).size = 1 ∧
    (buildGenomicRangesList
        [GenomicRange.mk "chr1" 1 5, GenomicRange.mk "chr1" 7 9,
         GenomicRange.mk "chr1" 2 3]).num_genomic_regions = 1 :=
  C10_size_counts_chromosomes.2 "chr1"
    [GenomicRange.mk "chr1" 1 5, GenomicRange.mk "chr1" 7 9,
     GenomicRange.mk "chr1" 2 3] (by decide) (by decide)

/-! # Claim C1: call-level filtering machinery -/

theorem add_variant_call_succeeds (v : Variant) (vc : VariantCall)
    (h : ∀ a ∈ v.variant_calls,
      vc.chromosome_1 = a.chromosome_1 ∧ vc.chromosome_2 = a.chromosome_2) :
    v.add_variant_call vc = .ok ⟨v.id, insortR vc v.variant_calls⟩ := by
  obtain ⟨vid, calls⟩ := v
  cases calls with
  | nil => rfl
  | cons c0 rest =>
    have hm := h c0 (List.mem_cons_self c0 rest)
    simp only [Variant.add_variant_call]
    rw [if_neg (by push_neg; exact hm)]

theorem foldlM_add_ok (l : List VariantCall) :
    ∀ v : Variant,
      (∀ a ∈ v.variant_calls, ∀ b ∈ l,
        a.chromosome_1 = b.chromosome_1 ∧ a.chromosome_2 = b.chromosome_2) →
      UniformChrom l →
      ∃ v', l.foldlM Variant.add_variant_call v = .ok v' ∧ v'.id = v.id ∧
        v'.variant_calls.Perm (l ++ v.variant_calls) := by
  induction l with
  | nil =>
    intro v _ _
    exact ⟨v, rfl, rfl, by simp⟩
  | cons vc l ih =>
    intro v hcross hl
    have hmatch : ∀ a ∈ v.variant_calls,
        vc.chromosome_1 = a.chromosome_1 ∧
          vc.chromosome_2 = a.chromosome_2 := by
      intro a ha
      have := hcross a ha vc (List.mem_cons_self vc l)
      exact ⟨this.1.symm, this.2.symm⟩
    have hok := add_variant_call_succeeds v vc hmatch
    obtain ⟨v', hv', hid, hperm⟩ :=
      ih ⟨v.id, insortR vc v.variant_calls⟩
        (by
          intro a ha b hb
          rcases (mem_insortR vc a _).1 ha with hea | ha
          · rw [hea]
            exact hl vc (List.mem_cons_self vc l) b
              (List.mem_cons_of_mem vc hb)
          · exact hcross a ha b (List.mem_cons_of_mem vc hb))
        (by
          intro a ha b hb
          exact hl a (List.mem_cons_of_mem vc ha) b
            (List.mem_cons_of_mem vc hb))
    refine ⟨v', ?_, hid, ?_⟩
    · rw [List.foldlM_cons, hok]
      exact hv'
    · exact hperm.trans
        ((List.Perm.append_left l (perm_insortR vc v.variant_calls)).trans
          List.perm_middle)

theorem rebuildVariant_ok (id : String) (l : List VariantCall)
    (hu : UniformChrom l) :
    ∃ v', rebuildVariant id l = .ok v' ∧ v'.id = id ∧
      v'.variant_calls.Perm l := by
  obtain ⟨v', h, hid, hperm⟩ :=
    foldlM_add_ok l ⟨id, []⟩ (by intro a ha; cases ha) hu
  exact ⟨v', h, hid, by simpa using hperm⟩

theorem filterStep_spec (rejected : List String)
    (acc : VariantsList × VariantsList) (variant : Variant)
    (hu : UniformChrom variant.variant_calls) :
    ∃ acc', filterStep rejected acc variant = .ok acc' ∧
      ((variant.variant_calls.filter
          (fun vc => !(rejected.contains vc.id)) = [] ∧ acc'.1 = acc.1) ∨
        (∃ vp, acc'.1 = acc.1.add_variant vp ∧ vp.id = variant.id ∧
          vp.variant_calls.Perm
            (variant.variant_calls.filter
              (fun vc => !(rejected.contains vc.id))) ∧
          vp.variant_calls ≠ [])) := by
  have hup : UniformChrom (variant.variant_calls.filter
      (fun vc => !(rejected.contains vc.id))) := by
    intro a ha b hb
    exact hu a (List.mem_filter.1 ha).1 b (List.mem_filter.1 hb).1
  have hur : UniformChrom (variant.variant_calls.filter
      (fun vc => rejected.contains vc.id)) := by
    intro a ha b hb
    exact hu a (List.mem_filter.1 ha).1 b (List.mem_filter.1 hb).1
  obtain ⟨vp, hvp, hvpid, hvpperm⟩ := rebuildVariant_ok variant.id _ hup
  obtain ⟨vr, hvr, hvrid, hvrperm⟩ := rebuildVariant_ok variant.id _ hur
  have hstep : filterStep rejected acc variant =
      .ok
        ((if vp.variant_calls.length > 0 then acc.1.add_variant vp
          else acc.1),
         (if vr.variant_calls.length > 0 then acc.2.add_variant vr
          else acc.2)) := by
    simp only [filterStep, hvp, hvr, Bind.bind, Except.bind, pure,
      Except.pure]
  by_cases hfp : variant.variant_calls.filter
      (fun vc => !(rejected.contains vc.id)) = []
  · have hnil : vp.variant_calls = [] := by
      rw [hfp] at hvpperm
      exact List.Perm.eq_nil hvpperm
    refine ⟨_, hstep, Or.inl ⟨hfp, ?_⟩⟩
    simp [hnil]
  · have hne : vp.variant_calls ≠ [] := by
      intro hcon
      rw [hcon] at hvpperm
      exact hfp (List.Perm.nil_eq hvpperm).symm
    have hlen : vp.variant_calls.length > 0 := List.length_pos.2 hne
    refine ⟨_, hstep, Or.inr ⟨vp, ?_, hvpid, hvpperm, hne⟩⟩
    simp [hlen]

theorem filterFold_spec (rejected : List String) :
    ∀ (vs : List Variant) (acc : VariantsList × VariantsList),
      (∀ v ∈ vs, UniformChrom v.variant_calls) →
      ∃ res, vs.foldlM (filterStep rejected) acc = .ok res ∧
        (∀ v' ∈ acc.1.variants, v' ∈ res.1.variants) ∧
        (∀ v' ∈ res.1.variants, v' ∈ acc.1.variants ∨
          ∃ v ∈ vs, v'.id = v.id ∧
            v'.variant_calls.Perm
              (v.variant_calls.filter
                (fun vc => !(rejected.contains vc.id))) ∧
            v'.variant_calls ≠ []) ∧
        (∀ v ∈ vs,
          v.variant_calls.filter (fun vc => !(rejected.contains vc.id)) ≠ [] →
          ∃ v' ∈ res.1.variants, v'.id = v.id ∧
            v'.variant_calls.Perm
              (v.variant_calls.filter
                (fun vc => !(rejected.contains vc.id)))) := by
  intro vs
  induction vs with
  | nil =>
    intro acc _
    refine ⟨acc, rfl, fun v' hv' => hv', fun v' hv' => Or.inl hv', ?_⟩
    intro v hv
    cases hv
  | cons v vs ih =>
    intro acc hall
    obtain ⟨acc', hstep, hcase⟩ :=
      filterStep_spec rejected acc v (hall v (List.mem_cons_self v vs))
    obtain ⟨res, hres, hmono, hmem, hex⟩ :=
      ih acc' (fun w hw => hall w (List.mem_cons_of_mem v hw))
    have hfold : (v :: vs).foldlM (filterStep rejected) acc =
        vs.foldlM (filterStep rejected) acc' := by
      rw [List.foldlM_cons, hstep]
      rfl
    have hacc_sub : ∀ v0 ∈ acc.1.variants, v0 ∈ acc'.1.variants := by
      intro v0 hv0
      rcases hcase with ⟨_, heq⟩ | ⟨vp, heq, _, _, _⟩
      · rw [heq]
        exact hv0
      · rw [heq]
        exact List.mem_append_left _ hv0
    refine ⟨res, by rw [hfold]; exact hres, ?_, ?_, ?_⟩
    · intro v0 hv0
      exact hmono v0 (hacc_sub v0 hv0)
    · intro v' hv'
      rcases hmem v' hv' with hacc' | ⟨w, hw, hrest⟩
      · rcases hcase with ⟨_, heq⟩ | ⟨vp, heq, hvpid, hvpperm, hvpne⟩
        · rw [heq] at hacc'
          exact Or.inl hacc'
        · rw [heq] at hacc'
          rcases List.mem_append.1 hacc' with hin | hone
          · exact Or.inl hin
          · have : v' = vp := List.mem_singleton.1 hone
            rw [this]
            exact Or.inr ⟨v, List.mem_cons_self v vs, hvpid, hvpperm, hvpne⟩
      · exact Or.inr ⟨w, List.mem_cons_of_mem v hw, hrest⟩
    · intro w hw hfil
      rcases List.mem_cons.1 hw with hwv | hw
      · rw [hwv] at hfil ⊢
        rcases hcase with ⟨hnil, _⟩ | ⟨vp, heq, hvpid, hvpperm, _⟩
        · exact absurd hnil hfil
        · refine ⟨vp, ?_, hvpid, hvpperm⟩
          apply hmono
          rw [heq]
          exact List.mem_append_right _ (List.mem_singleton.2 rfl)
      · exact hex w hw hfil

theorem mem_allCalls (V : VariantsList) (v : Variant) (c : VariantCall)
    (hv : v ∈ V.variants) (hc : c ∈ v.variant_calls) : c ∈ allCalls V := by
  unfold allCalls
  exact List.mem_flatten.2
    ⟨v.variant_calls, List.mem_map_of_mem Variant.variant_calls hv, hc⟩

theorem contains_rejected_iff (P : Int) (V : VariantsList)
    (G : GenomicRangesList)
    (hnd : ((allCalls V).map VariantCall.id).Nodup)
    (c : VariantCall) (hc : c ∈ allCalls V) :
    (rejectedVariantCallIds P V G).contains c.id = overlapHit P G c := by
  cases hhit : overlapHit P G c with
  | true =>
    have hmem : c.id ∈ rejectedVariantCallIds P V G := by
      unfold rejectedVariantCallIds
      exact List.mem_map_of_mem VariantCall.id
        (List.mem_filter.2 ⟨hc, hhit⟩)
    simpa using hmem
  | false =>
    cases hcont : (rejectedVariantCallIds P V G).contains c.id with
    | false => rfl
    | true =>
      exfalso
      have hmem : c.id ∈ rejectedVariantCallIds P V G := by
        simpa using hcont
      unfold rejectedVariantCallIds at hmem
      obtain ⟨c', hc', hid⟩ := List.mem_map.1 hmem
      obtain ⟨hc'mem, hc'hit⟩ := List.mem_filter.1 hc'
      have hcc : c' = c := List.inj_on_of_nodup_map hnd hc'mem hc hid
      rw [hcc] at hc'hit
      rw [hhit] at hc'hit
      cases hc'hit

/-- C1 (amended): `filter_excluded_regions` filters call by call, not
variant by variant.  For a well-formed variants list (uniform chromosomes
per variant, as every constructible list has; with distinct variant and
call IDs), the computation succeeds and in the passed output (i) no call
overlaps an excluded region, (ii) every input variant with at least one
non-overlapping call appears, carrying exactly its non-overlapping calls,
and (iii) an input variant all of whose calls overlap is dropped
entirely. -/
theorem C1_filter_excluded_regions_call_level (P : Int) (V : VariantsList)
    (G : GenomicRangesList) (hwf : WellFormed V)
    (hnd : ((allCalls V).map VariantCall.id).Nodup)
    (hids : (V.variants.map Variant.id).Nodup) :
    ∃ p r, filter_excluded_regions P V G = .ok (p, r) ∧
      (∀ v' ∈ p.variants, ∀ c ∈ v'.variant_calls,
        overlapHit P G c = false) ∧
      (∀ v ∈ V.variants,
        ((∃ c ∈ v.variant_calls, overlapHit P G c = false) →
          ∃ v' ∈ p.variants, v'.id = v.id ∧
            ∀ c, c ∈ v'.variant_calls ↔
              (c ∈ v.variant_calls ∧ overlapHit P G c = false)) ∧
        ((∀ c ∈ v.variant_calls, overlapHit P G c = true) →
          ∀ v' ∈ p.variants, v'.id ≠ v.id)) := by
  obtain ⟨res, hres, _, hmem, hex⟩ :=
    filterFold_spec (rejectedVariantCallIds P V G) V.variants
      (VariantsList.empty, VariantsList.empty) hwf
  have hbridge : ∀ v ∈ V.variants, ∀ c ∈ v.variant_calls,
      (rejectedVariantCallIds P V G).contains c.id = overlapHit P G c :=
    fun v hv c hc =>
      contains_rejected_iff P V G hnd c (mem_allCalls V v c hv hc)
  have hfil : ∀ v ∈ V.variants, ∀ c,
      (c ∈ v.variant_calls.filter
        (fun vc => !((rejectedVariantCallIds P V G).contains vc.id))) ↔
      (c ∈ v.variant_calls ∧ overlapHit P G c = false) := by
    intro v hv c
    rw [List.mem_filter]
    constructor
    · rintro ⟨hcv, hb⟩
      refine ⟨hcv, ?_⟩
      rw [← hbridge v hv c hcv]
      simpa using hb
    · rintro ⟨hcv, hb⟩
      refine ⟨hcv, ?_⟩
      rw [Bool.not_eq_true', hbridge v hv c hcv]
      exact hb
  refine ⟨res.1, res.2, ?_, ?_, ?_⟩
  · unfold filter_excluded_regions
    rw [hres]
  · intro v' hv' c hc
    rcases hmem v' hv' with hempty | ⟨v, hv, _, hperm, _⟩
    · cases hempty
    · have hcfil := hperm.mem_iff.1 hc
      exact ((hfil v hv c).1 hcfil).2
  · intro v hv
    constructor
    · intro ⟨c, hcv, hchit⟩
      have hne : v.variant_calls.filter
          (fun vc => !((rejectedVariantCallIds P V G).contains vc.id)) ≠ [] := by
        intro hcon
        have : c ∈ v.variant_calls.filter
            (fun vc => !((rejectedVariantCallIds P V G).contains vc.id)) :=
          (hfil v hv c).2 ⟨hcv, hchit⟩
        rw [hcon] at this
        cases this
      obtain ⟨v', hv', hvid, hvperm⟩ := hex v hv hne
      refine ⟨v', hv', hvid, ?_⟩
      intro c0
      rw [hvperm.mem_iff]
      exact hfil v hv c0
    · intro hall v' hv' hcon
      rcases hmem v' hv' with hempty | ⟨w, hw, hwid, hwperm, hwne⟩
      · cases hempty
      · have hvw : w = v :=
          List.inj_on_of_nodup_map hids hw hv (by rw [← hwid, hcon])
        rw [hvw] at hwperm
        obtain ⟨c, hcmem⟩ :=
          List.exists_mem_of_ne_nil v'.variant_calls hwne
        have hcfil := hwperm.mem_iff.1 hcmem
        have := (hfil v hv c).1 hcfil
        rw [hall c this.1] at this
        cases this.2

/-- Witness for C1: the amended theorem applied to the concrete
one-variant list holding a hit call and a clear call against the region
`chr1:90-110`. -/
theorem C1_filter_excluded_regions_call_level_witness :
    ∃ p r, filter_excluded_regions 0 vlMixed grlExcluded = .ok (p, r) ∧
      (∀ v' ∈ p.variants, ∀ c ∈ v'.variant_calls,
        overlapHit 0 grlExcluded c = false) ∧
      (∀ v ∈ vlMixed.variants,
        ((∃ c ∈ v.variant_calls, overlapHit 0 grlExcluded c = false) →
          ∃ v' ∈ p.variants, v'.id = v.id ∧
            ∀ c, c ∈ v'.variant_calls ↔
              (c ∈ v.variant_calls ∧ overlapHit 0 grlExcluded c = false)) ∧
        ((∀ c ∈ v.variant_calls, overlapHit 0 grlExcluded c = true) →
          ∀ v' ∈ p.variants, v'.id ≠ v.id)) :=
  C1_filter_excluded_regions_call_level 0 vlMixed grlExcluded
    (by
      intro v hv
      simp only [vlMixed, List.mem_singleton] at hv
      rw [hv]
      have hx : ∀ x ∈ (Variant.mk "v1" [callHit, callClear]).variant_calls,
          x.chromosome_1 = "chr1" ∧ x.chromosome_2 = "chr1" := by decide
      intro a ha b hb
      exact ⟨(hx a ha).1.trans (hx b hb).1.symm,
        (hx a ha).2.trans (hx b hb).2.symm⟩)
    (by decide) (by decide)

/-- C1 (counterexample): with one excluded region `chr1:90-110` and one
variant `v1` holding the hit call `c1` (at `chr1:100`) and the clear call
`c2` (at `chr1:500`), the passed output still contains variant `v1` (with
`c2`), where the claim requires any variant containing a hit to be
dropped in its entirety. -/
theorem C1_variant_with_hit_survives :
    overlapHit 0 grlExcluded callHit = true ∧
    filter_excluded_regions 0 vlMixed grlExcluded =
      .ok (⟨[⟨"v1", [callClear]⟩]⟩, ⟨[⟨"v1", [callHit]⟩]⟩) ∧
    "v1" ∈ (VariantsList.mk [⟨"v1", [callClear]⟩]).variant_ids :=
  ⟨by decide, by rfl, by decide⟩

/-! # Claim C4 -/

/-- C4 (counterexample): constructing a variant-call record performs no
validation — it succeeds on an INS row with `chromosome_1 = chromosome_2`
and `position_1 = 10 > 5 = position_2` (an inverted locus) and on a row
whose `variant_type` `FOO` is none of the eight known types, where the
claim requires a `MalformedRecord` failure. -/
theorem C4_construction_accepts_bad_rows :
    mkVariantCallFromRow rowInvertedLocus =
      .ok (VariantCall.mk "c1" "s1" "chr1" 10 "chr1" 5 "INS" "A" "AT" (-1)) ∧
    mkVariantCallFromRow rowUnknownType =
      .ok (VariantCall.mk "c2" "s1" "chr1" 5 "chr1" 10 "FOO" "A" "T" (-1)) ∧
    (10 : Int) > 5 ∧ "INS" ∈ variantTypesAll ∧ "FOO" ∉ variantTypesAll :=
  ⟨rfl, rfl, by decide, by decide, by decide⟩

/-- C4 (amended): construction validates nothing — whenever the nine
mandatory fields are present in the row and the two positions convert to
integers, the construction succeeds with exactly those field values,
regardless of locus order or of the `variant_type` string; no
`MalformedRecord` error exists in the code. -/
theorem C4_construction_never_validates
    (row : Row) (vid sid c1 p1c c2 p2c t ra aa : Cell) (p1 p2 : Int)
    (hvid : rowGet row "variant_call_id" = .ok vid)
    (hsid : rowGet row "sample_id" = .ok sid)
    (hc1 : rowGet row "chromosome_1" = .ok c1)
    (hp1c : rowGet row "position_1" = .ok p1c)
    (hp1 : pyInt p1c = .ok p1)
    (hc2 : rowGet row "chromosome_2" = .ok c2)
    (hp2c : rowGet row "position_2" = .ok p2c)
    (hp2 : pyInt p2c = .ok p2)
    (ht : rowGet row "variant_type" = .ok t)
    (hra : rowGet row "reference_allele" = .ok ra)
    (haa : rowGet row "alternate_allele" = .ok aa) :
    mkVariantCallFromRow row =
      .ok (VariantCall.mk (pyStr vid) (pyStr sid) (pyStr c1) p1 (pyStr c2)
        p2 (pyStr t) (pyStr ra) (pyStr aa) (-1)) := by
  simp [mkVariantCallFromRow, hvid, hsid, hc1, hp1c, hp1, hc2, hp2c, hp2,
    ht, hra, haa, Bind.bind, Except.bind, pure, Except.pure]

/-- Witness for C4: the amended theorem applied to the concrete
inverted-locus row. -/
theorem C4_construction_never_validates_witness :
    mkVariantCallFromRow rowInvertedLocus =
      .ok (VariantCall.mk (pyStr (.str "c1")) (pyStr (.str "s1"))
        (pyStr (.str "chr1")) 10 (pyStr (.str "chr1")) 5
        (pyStr (.str "INS")) (pyStr (.str "A")) (pyStr (.str "AT")) (-1)) :=
  C4_construction_never_validates rowInvertedLocus
    (.str "c1") (.str "s1") (.str "chr1") (.int 10) (.str "chr1") (.int 5)
    (.str "INS") (.str "A") (.str "AT") 10 5
    rfl rfl rfl rfl rfl rfl rfl rfl rfl rfl rfl

/-! # Claim C8 -/

theorem checkMandatoryColumns_ok (cols : List String)
    (h : ∀ c ∈ mandatoryColumns, c ∈ cols) :
    checkMandatoryColumns cols = .ok () := by
  have h1 : "variant_id" ∈ cols := h _ (by decide)
  have h2 : "variant_call_id" ∈ cols := h _ (by decide)
  have h3 : "sample_id" ∈ cols := h _ (by decide)
  have h4 : "chromosome_1" ∈ cols := h _ (by decide)
  have h5 : "position_1" ∈ cols := h _ (by decide)
  have h6 : "chromosome_2" ∈ cols := h _ (by decide)
  have h7 : "position_2" ∈ cols := h _ (by decide)
  have h8 : "variant_type" ∈ cols := h _ (by decide)
  have h9 : "reference_allele" ∈ cols := h _ (by decide)
  have h10 : "alternate_allele" ∈ cols := h _ (by decide)
  simp [checkMandatoryColumns, h1, h2, h3, h4, h5, h6, h7, h8, h9, h10]

set_option maxHeartbeats 1000000 in
theorem checkMandatoryColumns_ok_then (cols : List String)
    (h : checkMandatoryColumns cols = .ok ()) :
    ∀ c ∈ mandatoryColumns, c ∈ cols := by
  unfold checkMandatoryColumns at h
  split_ifs at h with h1 h2 h3 h4 h5 h6 h7 h8 h9 h10
  intro c hc
  simp only [mandatoryColumns, List.mem_cons, List.mem_singleton] at hc
  rcases hc with rfl | rfl | rfl | rfl | rfl | rfl | rfl | rfl | rfl | rfl |
    hfalse
  · exact h1
  · exact h2
  · exact h3
  · exact h4
  · exact h5
  · exact h6
  · exact h7
  · exact h8
  · exact h9
  · exact h10
  · cases hfalse

theorem checkMandatoryColumns_error (cols : List String)
    (h : ¬ ∀ c ∈ mandatoryColumns, c ∈ cols) :
    ∃ e, checkMandatoryColumns cols = .error e := by
  cases hc : checkMandatoryColumns cols with
  | ok u =>
    cases u
    exact absurd (checkMandatoryColumns_ok_then cols hc) h
  | error e => exact ⟨e, rfl⟩

theorem load_dataframe_error_of_check (df : DataFrame) (e : String)
    (h : checkMandatoryColumns df.columns = .error e) :
    load_dataframe df = .error e := by
  simp [load_dataframe, h, Bind.bind, Except.bind]

theorem lookup_append_single_ne (r : Row) (k c : String) (x : Cell)
    (h : k ≠ c) :
    List.lookup k (r ++ [(c, x)]) = List.lookup k r := by
  induction r with
  | nil =>
    have hb : (k == c) = false := beq_eq_false_iff_ne.2 h
    simp [List.lookup, hb]
  | cons p r ih =>
    obtain ⟨a, b⟩ := p
    simp only [List.cons_append, List.lookup]
    cases hka : (k == a) with
    | true => rfl
    | false => exact ih

theorem rowGet_append_ne (r : Row) (k c : String) (x : Cell) (h : k ≠ c) :
    rowGet (r ++ [(c, x)]) k = rowGet r k := by
  unfold rowGet
  rw [lookup_append_single_ne r k c x h]

theorem mkVariantCallFromRow_append_ne (r : Row) (c : String) (x : Cell)
    (h : ∀ k ∈ mandatoryColumns, k ≠ c) :
    mkVariantCallFromRow (r ++ [(c, x)]) = mkVariantCallFromRow r := by
  unfold mkVariantCallFromRow
  rw [rowGet_append_ne r "variant_call_id" c x (h _ (by decide)),
    rowGet_append_ne r "sample_id" c x (h _ (by decide)),
    rowGet_append_ne r "chromosome_1" c x (h _ (by decide)),
    rowGet_append_ne r "position_1" c x (h _ (by decide)),
    rowGet_append_ne r "chromosome_2" c x (h _ (by decide)),
    rowGet_append_ne r "position_2" c x (h _ (by decide)),
    rowGet_append_ne r "variant_type" c x (h _ (by decide)),
    rowGet_append_ne r "reference_allele" c x (h _ (by decide)),
    rowGet_append_ne r "alternate_allele" c x (h _ (by decide))]

theorem loadRowStep_append_ne (variants : List (String × Variant))
    (r : Row) (c : String) (x : Cell)
    (h : ∀ k ∈ mandatoryColumns, k ≠ c) :
    loadRowStep variants (r ++ [(c, x)]) = loadRowStep variants r := by
  unfold loadRowStep
  rw [rowGet_append_ne r "variant_id" c x (h _ (by decide)),
    mkVariantCallFromRow_append_ne r c x h]

theorem foldlM_map_except {α β σ : Type} (g : α → β)
    (f : σ → β → Except String σ) (l : List α) :
    ∀ init, (l.map g).foldlM f init = l.foldlM (fun s a => f s (g a)) init := by
  induction l with
  | nil =>
    intro init
    rfl
  | cons a l ih =>
    intro init
    simp only [List.map_cons, List.foldlM_cons]
    cases hf : f init (g a) with
    | error e => rfl
    | ok s =>
      show ((l.map g).foldlM f s : Except String σ) =
        l.foldlM (fun s a => f s (g a)) s
      exact ih s

theorem checkMandatoryColumns_append_ne (cols : List String) (c : String)
    (h : ∀ k ∈ mandatoryColumns, k ≠ c) :
    checkMandatoryColumns (cols ++ [c]) = checkMandatoryColumns cols := by
  have e1 : ("variant_id" = c) = False := eq_false (h _ (by decide))
  have e2 : ("variant_call_id" = c) = False := eq_false (h _ (by decide))
  have e3 : ("sample_id" = c) = False := eq_false (h _ (by decide))
  have e4 : ("chromosome_1" = c) = False := eq_false (h _ (by decide))
  have e5 : ("position_1" = c) = False := eq_false (h _ (by decide))
  have e6 : ("chromosome_2" = c) = False := eq_false (h _ (by decide))
  have e7 : ("position_2" = c) = False := eq_false (h _ (by decide))
  have e8 : ("variant_type" = c) = False := eq_false (h _ (by decide))
  have e9 : ("reference_allele" = c) = False := eq_false (h _ (by decide))
  have e10 : ("alternate_allele" = c) = False := eq_false (h _ (by decide))
  simp only [checkMandatoryColumns, List.mem_append, List.mem_singleton,
    e1, e2, e3, e4, e5, e6, e7, e8, e9, e10, or_false]

theorem load_dataframe_addColumn (df : DataFrame) (c : String)
    (f : Row → Cell) (h : c ∉ recognizedColumns) :
    load_dataframe (addColumn df c f) = load_dataframe df := by
  have hman : ∀ k ∈ mandatoryColumns, k ≠ c := by
    intro k hk heq
    apply h
    rw [← heq]
    simp only [recognizedColumns, List.mem_append]
    exact Or.inl (Or.inl (Or.inl hk))
  have hcols : (addColumn df c f).columns = df.columns ++ [c] := rfl
  have hrows : (addColumn df c f).rows =
      df.rows.map (fun r => r ++ [(c, f r)]) := rfl
  unfold load_dataframe
  rw [hcols, hrows, checkMandatoryColumns_append_ne df.columns c hman]
  cases hchk : checkMandatoryColumns df.columns with
  | error e =>
    simp [hchk, Bind.bind, Except.bind]
  | ok u =>
    cases u
    simp only [hchk, Bind.bind, Except.bind]
    rw [foldlM_map_except]
    have hfun : (fun (s : List (String × Variant)) (r : Row) =>
        loadRowStep s (r ++ [(c, f r)])) = fun s r => loadRowStep s r := by
      funext s r
      exact loadRowStep_append_ne s r c (f r) hman
    rw [hfun]

/-- C8 (amended): the opening column check of `load_dataframe` fails
exactly when one of the ten mandatory columns is absent, and such a
failure aborts the load; when all ten are present, unrecognized extra
columns are ignored (adding one never changes the result) — but a load
with all ten columns present can still fail later, during row parsing and
grouping (see the counterexample). -/
theorem C8_mandatory_columns_check :
    (∀ cols : List String, (∀ c ∈ mandatoryColumns, c ∈ cols) →
      checkMandatoryColumns cols = .ok ()) ∧
    (∀ cols : List String, ¬ (∀ c ∈ mandatoryColumns, c ∈ cols) →
      ∃ e, checkMandatoryColumns cols = .error e) ∧
    (∀ (df : DataFrame) (e : String),
      checkMandatoryColumns df.columns = .error e →
      load_dataframe df = .error e) ∧
    (∀ (df : DataFrame) (c : String) (f : Row → Cell),
      c ∉ recognizedColumns →
      load_dataframe (addColumn df c f) = load_dataframe df) :=
  ⟨checkMandatoryColumns_ok, checkMandatoryColumns_error,
   load_dataframe_error_of_check, load_dataframe_addColumn⟩

/-- Witness for C8: the exact mandatory set passes the check; dropping
`variant_id` fails it; appending an unrecognized column to a concrete
one-row frame leaves the load unchanged. -/
theorem C8_mandatory_columns_check_witness :
    checkMandatoryColumns mandatoryColumns = .ok () ∧
    (∃ e, checkMandatoryColumns (mandatoryColumns.erase "variant_id") =
      .error e) ∧
    load_dataframe (addColumn dfOneRow "zzz" (fun _ => .str "x")) =
      load_dataframe dfOneRow :=
  ⟨C8_mandatory_columns_check.1 mandatoryColumns (fun c hc => hc),
   C8_mandatory_columns_check.2.1 (mandatoryColumns.erase "variant_id")
     (by decide),
   C8_mandatory_columns_check.2.2.2 dfOneRow "zzz" (fun _ => .str "x")
     (by decide)⟩

/-- C8 (counterexample): the frame `dfSharedIdDifferentChrom` carries all
ten mandatory columns and well-typed cells, yet `load_dataframe` fails —
its two rows share `variant_id` `v1` but disagree on `chromosome_1`, so
`Variant.add_variant_call` raises during grouping.  The claim's
`only if` direction (all columns present implies loading proceeds) is
therefore false. -/
theorem C8_load_fails_with_all_columns_present :
    (∀ c ∈ mandatoryColumns, c ∈ dfSharedIdDifferentChrom.columns) ∧
    checkMandatoryColumns dfSharedIdDifferentChrom.columns = .ok () ∧
    exceptIsOk (load_dataframe dfSharedIdDifferentChrom) = false :=
  ⟨by decide, rfl, by rfl⟩

end Vstol
